import Mathlib

/-!
Shallow embedding of the two dialogue controllers of this repository:
the CLI controller `main` of `src/assistant_mediator.py` and the dialogue
loop of `src/streamlit_app.py`.  The external chat completion service is
modelled by an oracle `g : Nat -> String` giving the text returned by the
n-th `call_chat` invocation of a run (the code strips the text before
returning it, so oracle values stand for the stripped reply text).
Printing and interface rendering are omitted; everything the claims
mention (transcript, prompts, acceptance and rejection flags, turn
counter, number of generator calls, the final status line) is part of the
modelled state.
-/

/-! ### Pattern matcher

The default pattern sets use only literal characters, one alternation
group and the word boundary anchor, so the regex fragment below suffices.
Word characters and case folding are modelled at ASCII precision, which is
exact for the ASCII-only default patterns. -/

/-- ASCII word characters (digits, letters, underscore), modelling the regex
word class as used by the default pattern sets. -/
def isWordChar (c : Char) : Bool :=
  decide ((48 ≤ c.toNat ∧ c.toNat ≤ 57) ∨ (65 ≤ c.toNat ∧ c.toNat ≤ 90) ∨
    (97 ≤ c.toNat ∧ c.toNat ≤ 122) ∨ c.toNat = 95)

/-- ASCII lower casing, modelling how the IGNORECASE flag folds the case of
the letters occurring in the default pattern sets. -/
def lowerChar (c : Char) : Char :=
  if 65 ≤ c.toNat ∧ c.toNat ≤ 90 then Char.ofNat (c.toNat + 32) else c

/-- One text character matches one pattern character up to case. -/
def charMatch (d c : Char) : Bool := lowerChar d == lowerChar c

/-- The regex fragment needed by the pattern sets of the program: the empty
regex, literal characters, the word boundary anchor, sequencing and
alternation. -/
inductive Rx : Type
  | eps : Rx
  | char : Char → Rx
  | wordB : Rx
  | seq : Rx → Rx → Rx
  | alt : Rx → Rx → Rx
deriving DecidableEq

/-- Word-ness of the character after the current position. -/
def headWord : List Char → Bool
  | [] => false
  | c :: _ => isWordChar c

/-- Word-ness of the character before the current position. -/
def prevWord : Option Char → Bool
  | none => false
  | some c => isWordChar c

/-- The word boundary anchor holds at a position when exactly one of its two
sides is a word character; `prev` is the character just before the
position, `s` the remaining text. -/
def atBoundary (prev : Option Char) (s : List Char) : Bool :=
  prevWord prev != headWord s

/-- Continuation passing matcher: does the regex match a prefix of `s` so
that the continuation `k` accepts the rest?  `prev` is the character just
before `s` inside the full text. -/
def matchCont : Rx → Option Char → List Char → (Option Char → List Char → Bool) → Bool
  | Rx.eps, prev, s, k => k prev s
  | Rx.char c, _, s, k =>
    match s with
    | [] => false
    | d :: rest => charMatch d c && k (some d) rest
  | Rx.wordB, prev, s, k => atBoundary prev s && k prev s
  | Rx.seq a b, prev, s, k => matchCont a prev s fun p r => matchCont b p r k
  | Rx.alt a b, prev, s, k => matchCont a prev s k || matchCont b prev s k

/-- Boolean semantics of a regex search: the regex matches at the current
position or at some later position of the text. -/
def searchFrom (r : Rx) : Option Char → List Char → Bool
  | prev, [] => matchCont r prev [] fun _ _ => true
  | prev, c :: rest =>
    (matchCont r prev (c :: rest) fun _ _ => true) || searchFrom r (some c) rest

/-- Literal regex for a character sequence. -/
def lit : List Char → Rx
  | [] => Rx.eps
  | c :: cs => Rx.seq (Rx.char c) (lit cs)

/-- A word-boundary delimited literal phrase, the shape of most default
patterns. -/
def wordPhrase (s : String) : Rx :=
  Rx.seq Rx.wordB (Rx.seq (lit s.toList) Rx.wordB)

/-- The acceptance pattern set of the source (identical in both files). -/
def ACCEPT_PATTERNS : List Rx :=
  [wordPhrase ("I am convinced"),
   wordPhrase ("I accept this idea"),
   Rx.seq Rx.wordB (Rx.seq (lit ("This is ").toList)
     (Rx.seq (Rx.alt (lit ("feasible").toList) (lit ("profitable").toList)) Rx.wordB)),
   wordPhrase ("I agree to proceed")]

/-- The rejection pattern set of the source (identical in both files). -/
def REJECT_PATTERNS : List Rx :=
  [wordPhrase ("I reject this idea"),
   wordPhrase ("This won\x27t work"),
   wordPhrase ("Not acceptable"),
   wordPhrase ("I am not convinced")]

/-- The matcher of the source: true when any pattern of the set matches
anywhere in the text, case insensitively.  It is a total function. -/
def is_match (text : String) (patterns : List Rx) : Bool :=
  patterns.any fun p => searchFrom p none text.toList

/-- The text with every character lower cased, used to state that the
matcher is case insensitive. -/
def lowerString (t : String) : String := String.mk (t.toList.map lowerChar)

/-! ### Prompt construction -/

/-- The initial Consultant prompt (`consultant_prompt` in the source). -/
def consultant_prompt : String :=
  "Propose your single best AI-first online business idea that meets all your constraints. Follow your 8-section structure. Do not list multiple ideas."

/-- The Customer prompt built from the current Consultant reply
(`customer_user` in the source). -/
def customer_user (consultantReply : String) : String :=
  "Act as the skeptical customer. Challenge the following proposal until you are convinced or reject it. Focus on ROI, feasibility, low cost, uniqueness, and proof. Remember to say explicitly if you accept or reject.\n\nPROPOSAL:\n" ++ consultantReply

/-- The fixed part of the new idea prompt sent after a rejection. -/
def newIdeaHeader : String :=
  "The customer rejected your idea with the response below. Propose a different, single idea that addresses the customer\x27s reasons, still following your 8-section structure and all your constraints. Do not list multiple ideas.\n\nCUSTOMER RESPONSE:\n"

/-- The value of `consultant_user` in the rejection branch of the source. -/
def new_idea_user (customerReply : String) : String := newIdeaHeader ++ customerReply

/-- The fixed part of the refine prompt sent after a challenge. -/
def refineHeader : String :=
  "The customer is challenging your idea. Refine the SAME idea to address every objection. Keep it a single idea. Be concise, data-driven, and defend feasibility/ROI/low-cost clearly.\n\nCUSTOMER CHALLENGES:\n"

/-- The value of `consultant_user` in the challenge branch of the source. -/
def refine_user (customerReply : String) : String := refineHeader ++ customerReply

/-! ### Dialogue controllers -/

/-- One transcript entry: the dictionary with a role key and a content key
appended by the source. -/
structure Turn where
  role : String
  content : String
deriving DecidableEq

/-- Observable outcome of a controller run: the transcript, the user prompts
passed to `call_chat` in call order, the acceptance and rejection flags, the
final value of the turn counter and the number of `call_chat` invocations.
The CLI loop has no rejection flag of its own (a rejection is handled inside
the loop); CLI results always carry `rejected = false`, and an exhausted run
is one with both flags false. -/
structure RunResult where
  transcript : List Turn
  prompts : List String
  accepted : Bool
  rejected : Bool
  turnCount : Nat
  calls : Nat
deriving DecidableEq

/-- The dialogue loop of the CLI controller.  `fuel` is the number of
remaining iterations (`MAX_TURNS` minus the current value of `turn`), `t`
the current value of `turn`, `k` the index of the next `call_chat`
invocation and `cr` the current `consultant_reply`.  Acceptance breaks out
of the loop at once; a rejection or a challenge leads to one more
consultant call and the loop continues. -/
def cliLoop (g : Nat → String) : Nat → Nat → Nat → String → List Turn → List String → RunResult
  | 0, t, k, _, tr, ps => ⟨tr, ps, false, false, t, k⟩
  | fuel + 1, t, k, cr, tr, ps =>
    let creply := g k
    let tr1 := tr ++ [⟨"customer", creply⟩]
    let ps1 := ps ++ [customer_user cr]
    if is_match creply ACCEPT_PATTERNS then
      ⟨tr1, ps1, true, false, t + 1, k + 1⟩
    else
      let consUser :=
        if is_match creply REJECT_PATTERNS then new_idea_user creply
        else refine_user creply
      let nrep := g (k + 1)
      cliLoop g fuel (t + 1) (k + 2) nrep (tr1 ++ [⟨"consultant", nrep⟩]) (ps1 ++ [consUser])

/-- The CLI controller run: initial Consultant proposal, then the loop. -/
def cliRun (g : Nat → String) (maxTurns : Nat) : RunResult :=
  cliLoop g maxTurns 0 1 (g 0) [⟨"consultant", g 0⟩] [consultant_prompt]

/-- The dialogue loop of the streamlit app.  The loop condition also stops
on the rejection flag, so a rejection ends the run there, after one more
consultant call; an acceptance ends it without a further call.  When a
reply matches both sets, the acceptance test guards the consultant call, so
no new idea turn is generated. -/
def stLoop (g : Nat → String) : Nat → Nat → Nat → String → List Turn → List String → RunResult
  | 0, t, k, _, tr, ps => ⟨tr, ps, false, false, t, k⟩
  | fuel + 1, t, k, cr, tr, ps =>
    let creply := g k
    let tr1 := tr ++ [⟨"customer", creply⟩]
    let ps1 := ps ++ [customer_user cr]
    let acc := is_match creply ACCEPT_PATTERNS
    let rej := is_match creply REJECT_PATTERNS
    if acc then
      ⟨tr1, ps1, acc, rej, t + 1, k + 1⟩
    else
      let consUser := if rej then new_idea_user creply else refine_user creply
      let nrep := g (k + 1)
      let tr2 := tr1 ++ [⟨"consultant", nrep⟩]
      let ps2 := ps1 ++ [consUser]
      if rej then ⟨tr2, ps2, acc, rej, t + 1, k + 2⟩
      else stLoop g fuel (t + 1) (k + 2) nrep tr2 ps2

/-- The streamlit dialogue run started by the start button: initial
Consultant proposal, then the loop. -/
def stRun (g : Nat → String) (maxTurns : Nat) : RunResult :=
  stLoop g maxTurns 0 1 (g 0) [⟨"consultant", g 0⟩] [consultant_prompt]

/-- The final status line of the streamlit app. -/
def stMessage (r : RunResult) : String :=
  if r.accepted || r.rejected then "Dialogue finished." else "Stopped by max turns."

/-! ### Concrete generator scripts used by the concrete instances -/

/-- A generator script whose second call (the first customer reply) is a
plain rejection; every other call returns neutral text. -/
def gRej : Nat → String := fun n =>
  if n = 1 then "I reject this idea because it is too expensive."
  else "Here is a business idea."

/-- A generator script that never matches any pattern. -/
def gNeutral : Nat → String := fun _ => "Please clarify the costs."

/-- A generator script whose second call matches both an Accept and a Reject
pattern. -/
def gBoth : Nat → String := fun n =>
  if n = 1 then "I am convinced, and yet I reject this idea." else "Here is a business idea."

/-- A generator script whose second call is a plain acceptance. -/
def gAcc : Nat → String := fun n =>
  if n = 1 then "I accept this idea." else "Here is a business idea."

/-! ### Shapes of exhausted runs -/

/-- Transcript tail produced by `fuel` further non-accepting iterations:
`fuel` complete pairs of one customer and one consultant turn.  The reject
and refine branches of both loops append exactly the same turns (only the
prompts they send differ), so this shape covers every run of the budget in
which no customer reply triggers the acceptance break. -/
def pairTail (g : Nat → String) : Nat → Nat → List Turn
  | _, 0 => []
  | k, fuel + 1 =>
    ⟨"customer", g k⟩ :: ⟨"consultant", g (k + 1)⟩ :: pairTail g (k + 2) fuel

/-- The user prompts sent during those iterations. -/
def noMatchPrompts (g : Nat → String) : String → Nat → Nat → List String
  | _, _, 0 => []
  | cr, k, fuel + 1 =>
    customer_user cr :: refine_user (g k) :: noMatchPrompts g (g (k + 1)) (k + 2) fuel

/-- Every customer turn of the list is immediately followed by a consultant
turn: no customer challenge is left unanswered at the end. -/
def customersAnswered : List Turn → Bool
  | [] => true
  | t :: rest =>
    if t.role == "customer" then
      match rest with
      | [] => false
      | t2 :: _ => (t2.role == "consultant") && customersAnswered rest
    else customersAnswered rest

/-! ### Transcript export

The CLI saves the transcript with a JSON dump (no ASCII forcing, indent 2);
the streamlit app offers the same dump as a download.  `jsonExport` below
reproduces that textual output exactly and `jsonDecode` parses it back.
Both work on the character list of the document. -/

/-- A lowercase hexadecimal digit. -/
def hexDigit (n : Nat) : Char :=
  if n < 10 then Char.ofNat (48 + n) else Char.ofNat (87 + n)

/-- The value of a hexadecimal digit character. -/
def hexVal (c : Char) : Option Nat :=
  if 48 ≤ c.toNat ∧ c.toNat ≤ 57 then some (c.toNat - 48)
  else if 97 ≤ c.toNat ∧ c.toNat ≤ 102 then some (c.toNat - 87)
  else if 65 ≤ c.toNat ∧ c.toNat ≤ 70 then some (c.toNat - 55)
  else none

/-- The escape sequence the JSON dump emits for one character: short escapes
for backslash, quote and the common control characters, a four digit
unicode escape for the other control characters, the character itself
otherwise (no ASCII forcing). -/
def escapeChar (c : Char) : List Char :=
  if c = '\\' then ['\\', '\\']
  else if c = '"' then ['\\', '"']
  else if c = '\n' then ['\\', 'n']
  else if c = '\t' then ['\\', 't']
  else if c = '\r' then ['\\', 'r']
  else if c = Char.ofNat 8 then ['\\', 'b']
  else if c = Char.ofNat 12 then ['\\', 'f']
  else if c.toNat < 32 then
    ['\\', 'u', '0', '0', hexDigit (c.toNat / 16), hexDigit (c.toNat % 16)]
  else [c]

/-- JSON escaping of a whole string body. -/
def escapeString (s : List Char) : List Char := s.flatMap escapeChar

/-- A JSON string literal with its quotes. -/
def encStr (s : String) : List Char := '"' :: (escapeString s.toList ++ ['"'])

/-- Literal opening an exported turn object up to the role value. -/
def objOpen : List Char := ("  \x7b\n    \"role\": ").toList

/-- Literal between the role value and the content value. -/
def objMid : List Char := (",\n    \"content\": ").toList

/-- Literal closing an exported turn object. -/
def objClose : List Char := ("\n  \x7d").toList

/-- One exported turn object, indent level one. -/
def encTurn (t : Turn) : List Char :=
  objOpen ++ encStr t.role ++ objMid ++ encStr t.content ++ objClose

/-- The comma separated sequence of exported turn objects. -/
def encList : List Turn → List Char
  | [] => []
  | [t] => encTurn t
  | t :: t2 :: ts => encTurn t ++ ',' :: '\n' :: encList (t2 :: ts)

/-- The exact text of the JSON dump of a transcript (indent 2, no ASCII
forcing). -/
def jsonExport : List Turn → String
  | [] => "[]"
  | t :: ts => String.mk (('[' :: '\n' :: encList (t :: ts)) ++ ['\n', ']'])

/-- Decoding of a short escape character. -/
def unescapeChar (e : Char) : Option Char :=
  if e = '"' then some '"'
  else if e = '\\' then some '\\'
  else if e = '/' then some '/'
  else if e = 'n' then some '\n'
  else if e = 't' then some '\t'
  else if e = 'r' then some '\r'
  else if e = 'b' then some (Char.ofNat 8)
  else if e = 'f' then some (Char.ofNat 12)
  else none

/-- Parser for the body of a JSON string literal, after the opening quote:
returns the decoded characters and the input after the closing quote. -/
def parseStringBody : List Char → Option (List Char × List Char)
  | [] => none
  | c :: rest =>
    if c = '"' then some ([], rest)
    else if c = '\\' then
      match rest with
      | [] => none
      | e :: rest1 =>
        if e = 'u' then
          match rest1 with
          | h1 :: h2 :: h3 :: h4 :: rest2 =>
            match hexVal h1, hexVal h2, hexVal h3, hexVal h4 with
            | some a, some b, some c2, some d =>
              match parseStringBody rest2 with
              | some (out, r) => some (Char.ofNat (((a * 16 + b) * 16 + c2) * 16 + d) :: out, r)
              | none => none
            | _, _, _, _ => none
          | _ => none
        else
          match unescapeChar e with
          | some d =>
            match parseStringBody rest1 with
            | some (out, r) => some (d :: out, r)
            | none => none
          | none => none
    else
      match parseStringBody rest with
      | some (out, r) => some (c :: out, r)
      | none => none

/-- Parser for a JSON string literal with its quotes. -/
def parseJStr : List Char → Option (String × List Char)
  | [] => none
  | c :: rest =>
    if c = '"' then
      match parseStringBody rest with
      | some (out, r) => some (String.mk out, r)
      | none => none
    else none

/-- Consume an expected literal. -/
def parseLit : List Char → List Char → Option (List Char)
  | [], s => some s
  | _ :: _, [] => none
  | c :: cs, d :: s => if d = c then parseLit cs s else none

/-- Parser for one exported turn object. -/
def parseTurnObj (s : List Char) : Option (Turn × List Char) :=
  match parseLit objOpen s with
  | none => none
  | some s1 =>
    match parseJStr s1 with
    | none => none
    | some (role, s2) =>
      match parseLit objMid s2 with
      | none => none
      | some s3 =>
        match parseJStr s3 with
        | none => none
        | some (content, s4) =>
          match parseLit objClose s4 with
          | none => none
          | some s5 => some (⟨role, content⟩, s5)

/-- Parser for the comma separated sequence of turn objects; the fuel bounds
the number of objects. -/
def parseTurns : Nat → List Char → Option (List Turn × List Char)
  | 0, _ => none
  | fuel + 1, s =>
    match parseTurnObj s with
    | none => none
    | some (t, r) =>
      match r with
      | c1 :: c2 :: r2 =>
        if c1 = ',' ∧ c2 = '\n' then
          match parseTurns fuel r2 with
          | some (ts, r3) => some (t :: ts, r3)
          | none => none
        else some ([t], c1 :: c2 :: r2)
      | r => some ([t], r)

/-- Decoder for the exported JSON document. -/
def jsonDecode (s : String) : Option (List Turn) :=
  match s.toList with
  | [] => none
  | c :: rest =>
    if c = '[' then
      if rest = [']'] then some []
      else
        match rest with
        | [] => none
        | d :: rest2 =>
          if d = '\n' then
            match parseTurns rest2.length rest2 with
            | some (ts, r) => if r = ['\n', ']'] then some ts else none
            | none => none
          else none
    else none

/-! ### Helper lemmas about characters and the JSON export -/

/-- Code points below the surrogate range survive the Nat round trip. -/
theorem toNat_ofNat_small (n : Nat) (h : n < 55296) : (Char.ofNat n).toNat = n := by
  rw [Char.ofNat, dif_pos (Or.inl h)]
  rfl

theorem hexVal_hexDigit : ∀ n < 16, hexVal (hexDigit n) = some n := by decide

theorem hexVal_zero : hexVal '0' = some 0 := by decide

theorem escapeString_cons (c : Char) (cs : List Char) :
    escapeString (c :: cs) = escapeChar c ++ escapeString cs := by
  simp [escapeString]

/-- Parsing an escaped string body followed by the closing quote recovers the
original characters and the rest of the input. -/
theorem parseStringBody_escape (s rest : List Char) :
    parseStringBody (escapeString s ++ '"' :: rest) = some (s, rest) := by
  induction s with
  | nil =>
    rw [escapeString, List.flatMap_nil, List.nil_append, parseStringBody.eq_def]
    simp
  | cons c cs ih =>
    rw [escapeString_cons, List.append_assoc]
    by_cases h1 : c = '\\'
    · subst h1
      rw [escapeChar]
      simp only [if_pos rfl, List.cons_append, List.nil_append]
      rw [parseStringBody.eq_def]
      simp [unescapeChar, ih]
    · by_cases h2 : c = '"'
      · subst h2
        rw [escapeChar]
        simp only [reduceIte, List.cons_append, List.nil_append]
        rw [parseStringBody.eq_def]
        simp [unescapeChar, ih]
      · by_cases h3 : c = '\n'
        · subst h3
          rw [escapeChar]
          simp only [reduceIte, List.cons_append, List.nil_append]
          rw [parseStringBody.eq_def]
          simp [unescapeChar, ih]
        · by_cases h4 : c = '\t'
          · subst h4
            rw [escapeChar]
            simp only [reduceIte, List.cons_append, List.nil_append]
            rw [parseStringBody.eq_def]
            simp [unescapeChar, ih]
          · by_cases h5 : c = '\r'
            · subst h5
              rw [escapeChar]
              simp only [reduceIte, List.cons_append, List.nil_append]
              rw [parseStringBody.eq_def]
              simp [unescapeChar, ih]
            · by_cases h6 : c = Char.ofNat 8
              · subst h6
                rw [escapeChar]
                simp only [reduceIte, List.cons_append, List.nil_append]
                rw [parseStringBody.eq_def]
                simp [unescapeChar, ih]
              · by_cases h7 : c = Char.ofNat 12
                · subst h7
                  rw [escapeChar]
                  simp only [reduceIte, List.cons_append, List.nil_append]
                  rw [parseStringBody.eq_def]
                  simp [unescapeChar, ih]
                · by_cases h8 : c.toNat < 32
                  · have e1 : hexVal (hexDigit (c.toNat / 16)) = some (c.toNat / 16) :=
                      hexVal_hexDigit _ (by omega)
                    have e2 : hexVal (hexDigit (c.toNat % 16)) = some (c.toNat % 16) :=
                      hexVal_hexDigit _ (by omega)
                    rw [escapeChar]
                    simp only [h1, h2, h3, h4, h5, h6, h7, h8, if_true, if_false, reduceIte,
                      List.cons_append, List.nil_append]
                    rw [parseStringBody.eq_def]
                    simp [hexVal_zero, e1, e2, ih]
                    have hv2 : c.toNat / 16 * 16 + c.toNat % 16 = c.toNat := by omega
                    rw [hv2]
                    exact Char.ofNat_toNat c
                  · rw [escapeChar]
                    simp only [h1, h2, h3, h4, h5, h6, h7, h8, if_true, if_false, reduceIte,
                      List.cons_append, List.nil_append]
                    rw [parseStringBody.eq_def]
                    simp [h1, h2, ih]

theorem parseLit_append (l r : List Char) : parseLit l (l ++ r) = some r := by
  induction l with
  | nil => rfl
  | cons c cs ih => simp [parseLit, ih]

theorem mk_toList (s : String) : String.mk s.toList = s := rfl

theorem parseJStr_enc (s : String) (r : List Char) :
    parseJStr (encStr s ++ r) = some (s, r) := by
  have h : encStr s ++ r = '"' :: (escapeString s.toList ++ '"' :: r) := by
    simp [encStr]
  rw [h, parseJStr]
  simp [parseStringBody_escape, mk_toList]

theorem parseTurnObj_enc (t : Turn) (r : List Char) :
    parseTurnObj (encTurn t ++ r) = some (t, r) := by
  rw [encTurn, parseTurnObj]
  simp only [List.append_assoc, parseLit_append, parseJStr_enc]

theorem objOpen_length_pos : 0 < objOpen.length := by decide

theorem one_le_length_encTurn (t : Turn) : 1 ≤ (encTurn t).length := by
  have h := objOpen_length_pos
  simp only [encTurn, List.length_append]
  omega

theorem length_le_length_encList : ∀ tr : List Turn, tr.length ≤ (encList tr).length := by
  intro tr
  induction tr with
  | nil => simp [encList]
  | cons t ts ih =>
    cases ts with
    | nil =>
      simpa [encList] using one_le_length_encTurn t
    | cons t2 ts2 =>
      have h := one_le_length_encTurn t
      simp only [encList, List.length_append, List.length_cons] at *
      omega

theorem parseTurns_encList :
    ∀ (tr : List Turn) (fuel : Nat), tr ≠ [] → tr.length ≤ fuel →
      parseTurns fuel (encList tr ++ ['\n', ']']) = some (tr, ['\n', ']']) := by
  intro tr
  induction tr with
  | nil => intro fuel h _; exact absurd rfl h
  | cons t ts ih =>
    intro fuel _ hlen
    cases fuel with
    | zero => simp at hlen
    | succ f =>
      cases ts with
      | nil =>
        rw [encList, parseTurns]
        simp [parseTurnObj_enc]
      | cons t2 ts2 =>
        rw [encList, parseTurns]
        rw [List.append_assoc]
        simp only [List.cons_append, List.nil_append, parseTurnObj_enc]
        have hrec := ih f (by simp) (by simp at hlen ⊢; omega)
        simp [hrec]

theorem toList_mk (l : List Char) : (String.mk l).toList = l := rfl

/-! ### Helper lemmas about the matcher -/

theorem lowerChar_lowerChar (c : Char) : lowerChar (lowerChar c) = lowerChar c := by
  unfold lowerChar
  by_cases h : 65 ≤ c.toNat ∧ c.toNat ≤ 90
  · rw [if_pos h]
    have ht : (Char.ofNat (c.toNat + 32)).toNat = c.toNat + 32 :=
      toNat_ofNat_small _ (by omega)
    rw [if_neg (by rw [ht]; omega)]
  · rw [if_neg h, if_neg h]

theorem isWordChar_lowerChar (c : Char) : isWordChar (lowerChar c) = isWordChar c := by
  unfold lowerChar isWordChar
  by_cases h : 65 ≤ c.toNat ∧ c.toNat ≤ 90
  · rw [if_pos h]
    have ht : (Char.ofNat (c.toNat + 32)).toNat = c.toNat + 32 :=
      toNat_ofNat_small _ (by omega)
    rw [ht]
    rw [decide_eq_decide]
    omega
  · rw [if_neg h]

/-- Lower casing the text does not change the matcher: character matching
already folds case and word-ness is stable under the fold. -/
theorem matchCont_lower (r : Rx) :
    ∀ (prev : Option Char) (s : List Char) (k : Option Char → List Char → Bool),
      matchCont r (prev.map lowerChar) (s.map lowerChar) k =
        matchCont r prev s (fun p rest => k (p.map lowerChar) (rest.map lowerChar)) := by
  induction r with
  | eps => intro prev s k; rfl
  | char c =>
    intro prev s k
    cases s with
    | nil => rfl
    | cons d rest =>
      simp [matchCont, charMatch, lowerChar_lowerChar]
  | wordB =>
    intro prev s k
    cases prev <;> cases s <;>
      simp [matchCont, atBoundary, prevWord, headWord, isWordChar_lowerChar]
  | seq a b iha ihb =>
    intro prev s k
    simp only [matchCont]
    rw [iha]
    congr 1
    funext p rest
    rw [ihb]
  | alt a b iha ihb =>
    intro prev s k
    simp only [matchCont, iha, ihb]

theorem searchFrom_lower (r : Rx) :
    ∀ (s : List Char) (prev : Option Char),
      searchFrom r (prev.map lowerChar) (s.map lowerChar) = searchFrom r prev s := by
  intro s
  induction s with
  | nil =>
    intro prev
    have h := matchCont_lower r prev [] fun _ _ => true
    simpa [searchFrom] using h
  | cons c cs ih =>
    intro prev
    have h := matchCont_lower r prev (c :: cs) fun _ _ => true
    simp only [List.map_cons] at h
    have h2 := ih (some c)
    simp only [Option.map_some'] at h2
    simp only [List.map_cons, searchFrom]
    rw [h, h2]

theorem searchFrom_lower_none (r : Rx) (s : List Char) :
    searchFrom r none (s.map lowerChar) = searchFrom r none s := by
  have h := searchFrom_lower r s none
  simpa using h

theorem is_match_lowerString (t : String) (ps : List Rx) :
    is_match (lowerString t) ps = is_match t ps := by
  simp only [is_match, lowerString, toList_mk]
  simp only [searchFrom_lower_none]

/-- A pattern opening with a word boundary cannot match inside a text with no
word character. -/
theorem searchFrom_wordB_eq_false (r : Rx) :
    ∀ (s : List Char) (prev : Option Char), prevWord prev = false →
      (∀ c ∈ s, isWordChar c = false) →
      searchFrom (Rx.seq Rx.wordB r) prev s = false := by
  intro s
  induction s with
  | nil =>
    intro prev hp _
    simp [searchFrom, matchCont, atBoundary, hp, headWord]
  | cons c cs ih =>
    intro prev hp hs
    have hc : isWordChar c = false := hs c (List.mem_cons_self c cs)
    have htl : ∀ d ∈ cs, isWordChar d = false := fun d hd => hs d (List.mem_cons_of_mem c hd)
    have hrec := ih (some c) (by simpa [prevWord] using hc) htl
    simp [searchFrom, matchCont, atBoundary, hp, headWord, hc, hrec]

theorem isWordChar_eq_false_of_whitespace (c : Char) (h : c.isWhitespace = true) :
    isWordChar c = false := by
  simp only [Char.isWhitespace, Bool.or_eq_true, decide_eq_true_eq] at h
  rcases h with ((h | h) | h) | h <;> subst h <;> decide

theorem is_match_defaults_eq_false_of_no_word (t : String)
    (h : ∀ c ∈ t.toList, isWordChar c = false) :
    is_match t ACCEPT_PATTERNS = false ∧ is_match t REJECT_PATTERNS = false := by
  have hw : ∀ r : Rx, searchFrom (Rx.seq Rx.wordB r) none t.data = false :=
    fun r => searchFrom_wordB_eq_false r t.data none rfl h
  constructor <;> simp [is_match, ACCEPT_PATTERNS, REJECT_PATTERNS, wordPhrase, hw]

/-! ### Helper lemmas about the two loops -/

/-- When no generated text ever matches, the CLI loop runs through its whole
budget, pairing one customer and one consultant turn per iteration. -/
theorem cliLoop_noMatch (g : Nat → String)
    (hA : ∀ n, is_match (g n) ACCEPT_PATTERNS = false)
    (hR : ∀ n, is_match (g n) REJECT_PATTERNS = false) :
    ∀ (fuel t k : Nat) (cr : String) (tr : List Turn) (ps : List String),
      cliLoop g fuel t k cr tr ps =
        ⟨tr ++ pairTail g k fuel, ps ++ noMatchPrompts g cr k fuel,
         false, false, t + fuel, k + 2 * fuel⟩ := by
  intro fuel
  induction fuel with
  | zero =>
    intro t k cr tr ps
    simp [cliLoop, pairTail, noMatchPrompts]
  | succ f ih =>
    intro t k cr tr ps
    simp only [cliLoop, hA k, hR k, Bool.false_eq_true, if_false]
    rw [ih]
    have ha : t + 1 + f = t + (f + 1) := by omega
    have hb : k + 2 + 2 * f = k + 2 * (f + 1) := by omega
    simp only [pairTail, noMatchPrompts, List.append_assoc, List.cons_append,
      List.nil_append, ha, hb]

/-- When no generated text ever matches, the streamlit loop behaves like the
CLI loop and also runs through its whole budget. -/
theorem stLoop_noMatch (g : Nat → String)
    (hA : ∀ n, is_match (g n) ACCEPT_PATTERNS = false)
    (hR : ∀ n, is_match (g n) REJECT_PATTERNS = false) :
    ∀ (fuel t k : Nat) (cr : String) (tr : List Turn) (ps : List String),
      stLoop g fuel t k cr tr ps =
        ⟨tr ++ pairTail g k fuel, ps ++ noMatchPrompts g cr k fuel,
         false, false, t + fuel, k + 2 * fuel⟩ := by
  intro fuel
  induction fuel with
  | zero =>
    intro t k cr tr ps
    simp [stLoop, pairTail, noMatchPrompts]
  | succ f ih =>
    intro t k cr tr ps
    simp only [stLoop, hA k, hR k, Bool.false_eq_true, if_false]
    rw [ih]
    have ha : t + 1 + f = t + (f + 1) := by omega
    have hb : k + 2 + 2 * f = k + 2 * (f + 1) := by omega
    simp only [pairTail, noMatchPrompts, List.append_assoc, List.cons_append,
      List.nil_append, ha, hb]

/-- On scripts without any rejection match the two loops agree exactly. -/
theorem cliLoop_eq_stLoop_of_no_reject (g : Nat → String)
    (hR : ∀ n, is_match (g n) REJECT_PATTERNS = false) :
    ∀ (fuel t k : Nat) (cr : String) (tr : List Turn) (ps : List String),
      cliLoop g fuel t k cr tr ps = stLoop g fuel t k cr tr ps := by
  intro fuel
  induction fuel with
  | zero => intro t k cr tr ps; rfl
  | succ f ih =>
    intro t k cr tr ps
    cases hacc : is_match (g k) ACCEPT_PATTERNS with
    | true => simp [cliLoop, stLoop, hacc, hR k]
    | false => simp [cliLoop, stLoop, hacc, hR k, ih]

theorem pairTail_length (g : Nat → String) :
    ∀ (fuel k : Nat), (pairTail g k fuel).length = 2 * fuel := by
  intro fuel
  induction fuel with
  | zero => intro k; simp [pairTail]
  | succ f ih => intro k; simp [pairTail, ih]; omega

theorem customersAnswered_pair (x y : String) (rest : List Turn) :
    customersAnswered (⟨"customer", x⟩ :: ⟨"consultant", y⟩ :: rest) =
      customersAnswered rest := by
  have h1 : (("consultant" : String) == "customer") = false := by decide
  have h2 : (("customer" : String) == "customer") = true := by decide
  have h3 : (("consultant" : String) == "consultant") = true := by decide
  simp [customersAnswered, h1, h2, h3]

theorem customersAnswered_pairTail (g : Nat → String) :
    ∀ (fuel k : Nat), customersAnswered (pairTail g k fuel) = true := by
  intro fuel
  induction fuel with
  | zero => intro k; rfl
  | succ f ih =>
    intro k
    rw [pairTail, customersAnswered_pair]
    exact ih (k + 2)

theorem customersAnswered_consultant_cons (y : String) (rest : List Turn) :
    customersAnswered (⟨"consultant", y⟩ :: rest) = customersAnswered rest := by
  have h1 : (("consultant" : String) == "customer") = false := by decide
  simp [customersAnswered, h1]

/-- Any CLI loop run that does not end accepted ran every budgeted iteration
in full: whether an iteration took the reject or the refine branch, it
appended the same customer and consultant pair, so the transcript is the
starting one followed by one complete pair per iteration. -/
theorem cliLoop_shape_of_not_accepted (g : Nat → String) :
    ∀ (fuel t k : Nat) (cr : String) (tr : List Turn) (ps : List String),
      (cliLoop g fuel t k cr tr ps).accepted = false →
      (cliLoop g fuel t k cr tr ps).rejected = false ∧
      (cliLoop g fuel t k cr tr ps).transcript = tr ++ pairTail g k fuel ∧
      (cliLoop g fuel t k cr tr ps).turnCount = t + fuel ∧
      (cliLoop g fuel t k cr tr ps).calls = k + 2 * fuel := by
  intro fuel
  induction fuel with
  | zero =>
    intro t k cr tr ps _
    simp [cliLoop, pairTail]
  | succ f ih =>
    intro t k cr tr ps h
    cases hacc : is_match (g k) ACCEPT_PATTERNS with
    | true => simp [cliLoop, hacc] at h
    | false =>
      simp only [cliLoop, hacc, Bool.false_eq_true, if_false] at h ⊢
      obtain ⟨r1, r2, r3, r4⟩ := ih (t + 1) (k + 2) (g (k + 1)) _ _ h
      refine ⟨r1, ?_, ?_, ?_⟩
      · rw [r2]
        simp [pairTail]
      · rw [r3]; omega
      · rw [r4]; omega

/-- Any streamlit loop run that ends with both flags false (an exhausted
run) ran every budgeted iteration in full and its transcript is the starting
one followed by one complete customer and consultant pair per iteration. -/
theorem stLoop_shape_of_exhausted (g : Nat → String) :
    ∀ (fuel t k : Nat) (cr : String) (tr : List Turn) (ps : List String),
      (stLoop g fuel t k cr tr ps).accepted = false →
      (stLoop g fuel t k cr tr ps).rejected = false →
      (stLoop g fuel t k cr tr ps).transcript = tr ++ pairTail g k fuel ∧
      (stLoop g fuel t k cr tr ps).turnCount = t + fuel ∧
      (stLoop g fuel t k cr tr ps).calls = k + 2 * fuel := by
  intro fuel
  induction fuel with
  | zero =>
    intro t k cr tr ps _ _
    simp [stLoop, pairTail]
  | succ f ih =>
    intro t k cr tr ps h1 h2
    cases hacc : is_match (g k) ACCEPT_PATTERNS with
    | true => simp [stLoop, hacc] at h1
    | false =>
      cases hrej : is_match (g k) REJECT_PATTERNS with
      | true => simp [stLoop, hacc, hrej] at h2
      | false =>
        simp only [stLoop, hacc, hrej, Bool.false_eq_true, if_false] at h1 h2 ⊢
        obtain ⟨r2, r3, r4⟩ := ih (t + 1) (k + 2) (g (k + 1)) _ _ h1 h2
        refine ⟨?_, ?_, ?_⟩
        · rw [r2]
          simp [pairTail]
        · rw [r3]; omega
        · rw [r4]; omega

theorem gNeutral_accept (n : Nat) : is_match (gNeutral n) ACCEPT_PATTERNS = false :=
  (by decide : is_match ("Please clarify the costs.") ACCEPT_PATTERNS = false)

theorem gNeutral_reject (n : Nat) : is_match (gNeutral n) REJECT_PATTERNS = false :=
  (by decide : is_match ("Please clarify the costs.") REJECT_PATTERNS = false)

/-! ### Claims -/

/-- C1 (amended): for every Customer reply matching a Reject pattern and no
Accept pattern, the CLI controller builds the new idea prompt carrying the
rejection text verbatim, obtains one more Consultant reply and continues the
loop with that reply as the current idea; the streamlit controller builds
the same new idea prompt and appends one more Consultant reply, but then
terminates the run with the rejected flag set instead of continuing. -/
theorem C1_reject_behavior (g : Nat → String) (fuel t k : Nat) (cr : String)
    (tr : List Turn) (ps : List String)
    (hR : is_match (g k) REJECT_PATTERNS = true)
    (hA : is_match (g k) ACCEPT_PATTERNS = false) :
    cliLoop g (fuel + 1) t k cr tr ps =
      cliLoop g fuel (t + 1) (k + 2) (g (k + 1))
        (tr ++ [⟨"customer", g k⟩, ⟨"consultant", g (k + 1)⟩])
        (ps ++ [customer_user cr, new_idea_user (g k)]) ∧
    new_idea_user (g k) = newIdeaHeader ++ g k ∧
    stLoop g (fuel + 1) t k cr tr ps =
      ⟨tr ++ [⟨"customer", g k⟩, ⟨"consultant", g (k + 1)⟩],
       ps ++ [customer_user cr, new_idea_user (g k)], false, true, t + 1, k + 2⟩ := by
  refine ⟨?_, rfl, ?_⟩
  · simp [cliLoop, hA, hR]
  · simp [stLoop, hA, hR]

/-- C1 (counterexample to the claim as stated): under the streamlit loop
with a budget of two pairs, a first Customer reply matching only a Reject
pattern ends the run after a single pair, with three transcript entries and
the rejected flag set, so that controller does terminate on the rejection
instead of continuing. -/
theorem C1_reject_counterexample :
    is_match (gRej 1) REJECT_PATTERNS = true ∧
    is_match (gRej 1) ACCEPT_PATTERNS = false ∧
    (stRun gRej 2).rejected = true ∧
    (stRun gRej 2).turnCount = 1 ∧
    (stRun gRej 2).transcript.length = 3 := by
  decide

/-- Witness for the amended C1 theorem at a concrete script. -/
theorem C1_reject_behavior_witness :
    is_match (gRej 1) REJECT_PATTERNS = true ∧
    is_match (gRej 1) ACCEPT_PATTERNS = false ∧
    (cliLoop gRej 1 0 1 (gRej 0) [⟨"consultant", gRej 0⟩] [consultant_prompt] =
      cliLoop gRej 0 1 3 (gRej 2)
        ([⟨"consultant", gRej 0⟩] ++ [⟨"customer", gRej 1⟩, ⟨"consultant", gRej 2⟩])
        ([consultant_prompt] ++ [customer_user (gRej 0), new_idea_user (gRej 1)]) ∧
     new_idea_user (gRej 1) = newIdeaHeader ++ gRej 1 ∧
     stLoop gRej 1 0 1 (gRej 0) [⟨"consultant", gRej 0⟩] [consultant_prompt] =
       ⟨[⟨"consultant", gRej 0⟩] ++ [⟨"customer", gRej 1⟩, ⟨"consultant", gRej 2⟩],
        [consultant_prompt] ++ [customer_user (gRej 0), new_idea_user (gRej 1)],
        false, true, 1, 3⟩) :=
  ⟨by decide, by decide,
   C1_reject_behavior gRej 0 0 1 (gRej 0) [⟨"consultant", gRej 0⟩] [consultant_prompt]
     (by decide) (by decide)⟩

/-- C2: when a Customer reply matches both an Accept and a Reject pattern
the acceptance test governs both controllers: each run terminates at once
with the accepted flag set, appends no further turn after that customer turn
and makes no rejection driven consultant call.  The CLI checks Accept first
and breaks; the streamlit consultant call is guarded by the acceptance flag,
though its state also records the rejection match. -/
theorem C2_accept_priority (g : Nat → String) (fuel t k : Nat) (cr : String)
    (tr : List Turn) (ps : List String)
    (hA : is_match (g k) ACCEPT_PATTERNS = true)
    (hR : is_match (g k) REJECT_PATTERNS = true) :
    cliLoop g (fuel + 1) t k cr tr ps =
      ⟨tr ++ [⟨"customer", g k⟩], ps ++ [customer_user cr], true, false, t + 1, k + 1⟩ ∧
    stLoop g (fuel + 1) t k cr tr ps =
      ⟨tr ++ [⟨"customer", g k⟩], ps ++ [customer_user cr], true, true, t + 1, k + 1⟩ := by
  constructor
  · simp [cliLoop, hA]
  · simp [stLoop, hA, hR]

/-- Witness for the C2 theorem at a concrete script whose first customer
reply matches both pattern sets. -/
theorem C2_accept_priority_witness :
    is_match (gBoth 1) ACCEPT_PATTERNS = true ∧
    is_match (gBoth 1) REJECT_PATTERNS = true ∧
    (cliLoop gBoth 1 0 1 (gBoth 0) [⟨"consultant", gBoth 0⟩] [consultant_prompt] =
      ⟨[⟨"consultant", gBoth 0⟩] ++ [⟨"customer", gBoth 1⟩],
       [consultant_prompt] ++ [customer_user (gBoth 0)], true, false, 1, 2⟩ ∧
     stLoop gBoth 1 0 1 (gBoth 0) [⟨"consultant", gBoth 0⟩] [consultant_prompt] =
      ⟨[⟨"consultant", gBoth 0⟩] ++ [⟨"customer", gBoth 1⟩],
       [consultant_prompt] ++ [customer_user (gBoth 0)], true, true, 1, 2⟩) :=
  ⟨by decide, by decide,
   C2_accept_priority gBoth 0 0 1 (gBoth 0) [⟨"consultant", gBoth 0⟩] [consultant_prompt]
     (by decide) (by decide)⟩

/-- C3: for every Customer reply that matches an Accept pattern both runs
terminate as accepted, no further consultant generation call is made (the
call counter advances only past the customer call) and no further turn is
appended to the transcript after that customer turn. -/
theorem C3_accept_terminates (g : Nat → String) (fuel t k : Nat) (cr : String)
    (tr : List Turn) (ps : List String)
    (hA : is_match (g k) ACCEPT_PATTERNS = true) :
    cliLoop g (fuel + 1) t k cr tr ps =
      ⟨tr ++ [⟨"customer", g k⟩], ps ++ [customer_user cr], true, false, t + 1, k + 1⟩ ∧
    stLoop g (fuel + 1) t k cr tr ps =
      ⟨tr ++ [⟨"customer", g k⟩], ps ++ [customer_user cr], true,
       is_match (g k) REJECT_PATTERNS, t + 1, k + 1⟩ := by
  constructor
  · simp [cliLoop, hA]
  · simp [stLoop, hA]

/-- Witness for the C3 theorem at a concrete script whose first customer
reply is a plain acceptance. -/
theorem C3_accept_terminates_witness :
    is_match (gAcc 1) ACCEPT_PATTERNS = true ∧
    (cliLoop gAcc 1 0 1 (gAcc 0) [⟨"consultant", gAcc 0⟩] [consultant_prompt] =
      ⟨[⟨"consultant", gAcc 0⟩] ++ [⟨"customer", gAcc 1⟩],
       [consultant_prompt] ++ [customer_user (gAcc 0)], true, false, 1, 2⟩ ∧
     stLoop gAcc 1 0 1 (gAcc 0) [⟨"consultant", gAcc 0⟩] [consultant_prompt] =
      ⟨[⟨"consultant", gAcc 0⟩] ++ [⟨"customer", gAcc 1⟩],
       [consultant_prompt] ++ [customer_user (gAcc 0)], true,
       is_match (gAcc 1) REJECT_PATTERNS, 1, 2⟩) :=
  ⟨by decide,
   C3_accept_terminates gAcc 0 0 1 (gAcc 0) [⟨"consultant", gAcc 0⟩] [consultant_prompt]
     (by decide)⟩

/-- C4: with a positive budget of N pairs and a script in which no Accept or
Reject pattern ever matches, both controllers perform exactly N iterations
of one customer and one consultant turn each and halt exhausted, with both
terminal flags false; the budget is re-checked before every iteration, and
the loops terminate by construction. -/
theorem C4_turn_budget (g : Nat → String) (N : Nat) (hN : 0 < N)
    (hA : ∀ n, is_match (g n) ACCEPT_PATTERNS = false)
    (hR : ∀ n, is_match (g n) REJECT_PATTERNS = false) :
    (cliRun g N).turnCount = N ∧ (cliRun g N).accepted = false ∧
    (cliRun g N).rejected = false ∧ (cliRun g N).transcript.length = 2 * N + 1 ∧
    (stRun g N).turnCount = N ∧ (stRun g N).accepted = false ∧
    (stRun g N).rejected = false ∧ (stRun g N).transcript.length = 2 * N + 1 := by
  have hc := cliLoop_noMatch g hA hR N 0 1 (g 0) [⟨"consultant", g 0⟩] [consultant_prompt]
  have hs := stLoop_noMatch g hA hR N 0 1 (g 0) [⟨"consultant", g 0⟩] [consultant_prompt]
  unfold cliRun stRun
  rw [hc, hs]
  simp [pairTail_length]

/-- Witness for the C4 theorem with a budget of one and a neutral script. -/
theorem C4_turn_budget_witness :
    (0 : Nat) < 1 ∧
    (∀ n, is_match (gNeutral n) ACCEPT_PATTERNS = false) ∧
    (∀ n, is_match (gNeutral n) REJECT_PATTERNS = false) ∧
    ((cliRun gNeutral 1).turnCount = 1 ∧ (cliRun gNeutral 1).accepted = false ∧
     (cliRun gNeutral 1).rejected = false ∧ (cliRun gNeutral 1).transcript.length = 2 * 1 + 1 ∧
     (stRun gNeutral 1).turnCount = 1 ∧ (stRun gNeutral 1).accepted = false ∧
     (stRun gNeutral 1).rejected = false ∧ (stRun gNeutral 1).transcript.length = 2 * 1 + 1) :=
  ⟨by decide, fun n => gNeutral_accept n, fun n => gNeutral_reject n,
   C4_turn_budget gNeutral 1 (by decide) (fun n => gNeutral_accept n) (fun n => gNeutral_reject n)⟩

/-- C5: whenever a run ends without a terminal classification (its budget
exhausted, the generator total in this model), the controller stopped only
at an iteration boundary: the transcript is the initial proposal followed by
one complete customer and consultant pair per budgeted iteration, so it
never ends with a dangling single sided turn and every customer turn is
immediately answered; the turn counter equals the budget, the CLI run
reports neither acceptance nor rejection, and the streamlit status line
reports the stop by max turns rather than a finished dialogue.  The only
hypotheses are on the outcome of the run itself, so mid-run rejections of
the CLI (non-terminal there) and match phrases inside consultant replies
are covered. -/
theorem C5_clean_exhaustion (g : Nat → String) (N : Nat) :
    ((cliRun g N).accepted = false →
      (cliRun g N).rejected = false ∧
      (cliRun g N).transcript = ⟨"consultant", g 0⟩ :: pairTail g 1 N ∧
      customersAnswered ((cliRun g N).transcript) = true ∧
      (cliRun g N).turnCount = N) ∧
    ((stRun g N).accepted = false → (stRun g N).rejected = false →
      (stRun g N).transcript = ⟨"consultant", g 0⟩ :: pairTail g 1 N ∧
      customersAnswered ((stRun g N).transcript) = true ∧
      (stRun g N).turnCount = N ∧
      stMessage (stRun g N) = "Stopped by max turns.") := by
  constructor
  · intro h
    unfold cliRun at h ⊢
    obtain ⟨r1, r2, r3, _⟩ := cliLoop_shape_of_not_accepted g N 0 1 (g 0) _ _ h
    refine ⟨r1, ?_, ?_, ?_⟩
    · rw [r2]; simp
    · rw [r2]
      simp [customersAnswered_consultant_cons, customersAnswered_pairTail]
    · rw [r3]; omega
  · intro h1 h2
    unfold stRun at h1 h2 ⊢
    obtain ⟨r2, r3, _⟩ := stLoop_shape_of_exhausted g N 0 1 (g 0) _ _ h1 h2
    refine ⟨?_, ?_, ?_, ?_⟩
    · rw [r2]; simp
    · rw [r2]
      simp [customersAnswered_consultant_cons, customersAnswered_pairTail]
    · rw [r3]; omega
    · simp [stMessage, h1, h2]

/-- Witness for the C5 theorem: the CLI side at a script whose first
customer reply is a rejection (the run still exhausts its budget of two,
since rejection is non-terminal there), the streamlit side at the neutral
script. -/
theorem C5_clean_exhaustion_witness :
    (cliRun gRej 2).accepted = false ∧
    ((cliRun gRej 2).rejected = false ∧
     (cliRun gRej 2).transcript = ⟨"consultant", gRej 0⟩ :: pairTail gRej 1 2 ∧
     customersAnswered ((cliRun gRej 2).transcript) = true ∧
     (cliRun gRej 2).turnCount = 2) ∧
    (stRun gNeutral 1).accepted = false ∧
    (stRun gNeutral 1).rejected = false ∧
    ((stRun gNeutral 1).transcript = ⟨"consultant", gNeutral 0⟩ :: pairTail gNeutral 1 1 ∧
     customersAnswered ((stRun gNeutral 1).transcript) = true ∧
     (stRun gNeutral 1).turnCount = 1 ∧
     stMessage (stRun gNeutral 1) = "Stopped by max turns.") :=
  ⟨by decide, (C5_clean_exhaustion gRej 2).1 (by decide), by decide, by decide,
   (C5_clean_exhaustion gNeutral 1).2 (by decide) (by decide)⟩

/-- C6 (counterexample to the claim as stated): with a budget of one pair
and a customer reply matching neither set, both runs end exhausted after one
pair but the transcript holds three turns, not the two or one the claim
allows, because each loop still generates a trailing consultant refinement
inside its final iteration. -/
theorem C6_counterexample :
    is_match (gNeutral 1) ACCEPT_PATTERNS = false ∧
    is_match (gNeutral 1) REJECT_PATTERNS = false ∧
    (cliRun gNeutral 1).turnCount = 1 ∧
    (cliRun gNeutral 1).accepted = false ∧ (cliRun gNeutral 1).rejected = false ∧
    (cliRun gNeutral 1).transcript.length = 3 ∧
    (stRun gNeutral 1).transcript.length = 3 := by
  decide

/-- C6 (amended): with a budget of one pair and a customer reply matching
neither set, both runs end exhausted after exactly one pair and the
transcript holds exactly three turns: the initial proposal, the customer
reply and one final consultant refinement. -/
theorem C6_exhausted_transcript (g : Nat → String)
    (hA1 : is_match (g 1) ACCEPT_PATTERNS = false)
    (hR1 : is_match (g 1) REJECT_PATTERNS = false) :
    cliRun g 1 =
      ⟨[⟨"consultant", g 0⟩, ⟨"customer", g 1⟩, ⟨"consultant", g 2⟩],
       [consultant_prompt, customer_user (g 0), refine_user (g 1)], false, false, 1, 3⟩ ∧
    stRun g 1 =
      ⟨[⟨"consultant", g 0⟩, ⟨"customer", g 1⟩, ⟨"consultant", g 2⟩],
       [consultant_prompt, customer_user (g 0), refine_user (g 1)], false, false, 1, 3⟩ := by
  constructor
  · simp [cliRun, cliLoop, hA1, hR1]
  · simp [stRun, stLoop, hA1, hR1]

/-- Witness for the amended C6 theorem at the neutral script. -/
theorem C6_exhausted_transcript_witness :
    is_match (gNeutral 1) ACCEPT_PATTERNS = false ∧
    is_match (gNeutral 1) REJECT_PATTERNS = false ∧
    (cliRun gNeutral 1 =
      ⟨[⟨"consultant", gNeutral 0⟩, ⟨"customer", gNeutral 1⟩, ⟨"consultant", gNeutral 2⟩],
       [consultant_prompt, customer_user (gNeutral 0), refine_user (gNeutral 1)],
       false, false, 1, 3⟩ ∧
     stRun gNeutral 1 =
      ⟨[⟨"consultant", gNeutral 0⟩, ⟨"customer", gNeutral 1⟩, ⟨"consultant", gNeutral 2⟩],
       [consultant_prompt, customer_user (gNeutral 0), refine_user (gNeutral 1)],
       false, false, 1, 3⟩) :=
  ⟨by decide, by decide, C6_exhausted_transcript gNeutral (by decide) (by decide)⟩

/-- C7: the matcher is a total function returning true exactly when some
pattern of the set matches at some position of the text; it is case
insensitive (lower casing the text never changes its verdict); and an empty
or whitespace only text never matches the accept or reject pattern sets of
the program. -/
theorem C7_matcher_contract (t : String) (ps : List Rx) :
    (is_match t ps = true ↔ ∃ p ∈ ps, searchFrom p none t.toList = true) ∧
    is_match (lowerString t) ps = is_match t ps ∧
    ((∀ c ∈ t.toList, c.isWhitespace = true) →
      is_match t ACCEPT_PATTERNS = false ∧ is_match t REJECT_PATTERNS = false) := by
  refine ⟨?_, is_match_lowerString t ps, ?_⟩
  · simp [is_match, List.any_eq_true]
  · intro hw
    exact is_match_defaults_eq_false_of_no_word t
      (fun c hc => isWordChar_eq_false_of_whitespace c (hw c hc))

/-- Witness for the C7 theorem at a whitespace only text. -/
theorem C7_matcher_contract_witness :
    (∀ c ∈ ("  ").toList, c.isWhitespace = true) ∧
    (is_match ("  ") ACCEPT_PATTERNS = false ∧ is_match ("  ") REJECT_PATTERNS = false) :=
  ⟨by decide, (C7_matcher_contract ("  ") ACCEPT_PATTERNS).2.2 (by decide)⟩

/-- C8: for every Customer reply matching neither pattern set, both
controllers take the refine transition: the next consultant prompt is the
refine prompt carrying the challenge text verbatim as its suffix, one more
consultant reply is obtained and the loop continues; neither run terminates
on that classification. -/
theorem C8_challenge_refines (g : Nat → String) (fuel t k : Nat) (cr : String)
    (tr : List Turn) (ps : List String)
    (hA : is_match (g k) ACCEPT_PATTERNS = false)
    (hR : is_match (g k) REJECT_PATTERNS = false) :
    cliLoop g (fuel + 1) t k cr tr ps =
      cliLoop g fuel (t + 1) (k + 2) (g (k + 1))
        (tr ++ [⟨"customer", g k⟩, ⟨"consultant", g (k + 1)⟩])
        (ps ++ [customer_user cr, refine_user (g k)]) ∧
    refine_user (g k) = refineHeader ++ g k ∧
    stLoop g (fuel + 1) t k cr tr ps =
      stLoop g fuel (t + 1) (k + 2) (g (k + 1))
        (tr ++ [⟨"customer", g k⟩, ⟨"consultant", g (k + 1)⟩])
        (ps ++ [customer_user cr, refine_user (g k)]) := by
  refine ⟨?_, rfl, ?_⟩
  · simp [cliLoop, hA, hR]
  · simp [stLoop, hA, hR]

/-- Witness for the C8 theorem at the neutral script. -/
theorem C8_challenge_refines_witness :
    is_match (gNeutral 1) ACCEPT_PATTERNS = false ∧
    is_match (gNeutral 1) REJECT_PATTERNS = false ∧
    (cliLoop gNeutral 1 0 1 (gNeutral 0) [⟨"consultant", gNeutral 0⟩] [consultant_prompt] =
      cliLoop gNeutral 0 1 3 (gNeutral 2)
        ([⟨"consultant", gNeutral 0⟩] ++ [⟨"customer", gNeutral 1⟩, ⟨"consultant", gNeutral 2⟩])
        ([consultant_prompt] ++ [customer_user (gNeutral 0), refine_user (gNeutral 1)]) ∧
     refine_user (gNeutral 1) = refineHeader ++ gNeutral 1 ∧
     stLoop gNeutral 1 0 1 (gNeutral 0) [⟨"consultant", gNeutral 0⟩] [consultant_prompt] =
      stLoop gNeutral 0 1 3 (gNeutral 2)
        ([⟨"consultant", gNeutral 0⟩] ++ [⟨"customer", gNeutral 1⟩, ⟨"consultant", gNeutral 2⟩])
        ([consultant_prompt] ++ [customer_user (gNeutral 0), refine_user (gNeutral 1)])) :=
  ⟨by decide, by decide,
   C8_challenge_refines gNeutral 0 0 1 (gNeutral 0) [⟨"consultant", gNeutral 0⟩]
     [consultant_prompt] (by decide) (by decide)⟩

/-- C9: decoding the textual JSON export of any transcript recovers exactly
the original ordered sequence of role and content pairs, so the export is a
lossless round trip; the export is a pure function of the transcript and
cannot mutate it. -/
theorem C9_json_roundtrip (tr : List Turn) : jsonDecode (jsonExport tr) = some tr := by
  cases tr with
  | nil => rfl
  | cons t ts =>
    have hne : ('\n' :: (encList (t :: ts) ++ ['\n', ']'])) ≠ [']'] := by simp
    have hlen : (t :: ts).length ≤ (encList (t :: ts) ++ ['\n', ']']).length := by
      have h := length_le_length_encList (t :: ts)
      simp only [List.length_append, List.length_cons] at *
      omega
    rw [jsonExport, jsonDecode, toList_mk]
    simp only [List.cons_append, List.nil_append, if_true, ite_true, hne, ite_false, reduceIte]
    rw [parseTurns_encList (t :: ts) _ (by simp) hlen]
    simp

/-- C10 (counterexample to the claim as stated): on the script whose first
customer reply is a plain rejection and with a budget of two pairs, the CLI
run continues after the rejection and exhausts its budget with five turns
and both flags false, while the streamlit run stops after three turns with
the rejected flag set: the two controllers produce different transcripts and
different terminal classifications. -/
theorem C10_counterexample :
    (cliRun gRej 2).transcript.length = 5 ∧ (stRun gRej 2).transcript.length = 3 ∧
    (cliRun gRej 2).accepted = false ∧ (cliRun gRej 2).rejected = false ∧
    (stRun gRej 2).rejected = true ∧
    cliRun gRej 2 ≠ stRun gRej 2 := by
  decide

/-- C10 (amended): for every budget and every script in which no generated
text matches a Reject pattern, the CLI run and the streamlit run coincide
exactly: same transcript, same prompts, same flags, same counters. -/
theorem C10_loops_agree_no_reject (g : Nat → String) (N : Nat)
    (hR : ∀ n, is_match (g n) REJECT_PATTERNS = false) :
    cliRun g N = stRun g N := by
  unfold cliRun stRun
  exact cliLoop_eq_stLoop_of_no_reject g hR N 0 1 (g 0) _ _

/-- Witness for the amended C10 theorem at the neutral script. -/
theorem C10_loops_agree_no_reject_witness :
    (∀ n, is_match (gNeutral n) REJECT_PATTERNS = false) ∧
    cliRun gNeutral 1 = stRun gNeutral 1 :=
  ⟨fun n => gNeutral_reject n, C10_loops_agree_no_reject gNeutral 1 (fun n => gNeutral_reject n)⟩
